import Mathlib

/-!
Verification of the build-orchestration logic of the `gem-check` repository
(`gulpfile.js`) against its natural-language specification.

The gulpfile registers a fixed task graph with the orchestrator:

* leaf tasks `html`, `styles`, `copy:fonts`, `copy:images`, `copy:root`,
  `copy:vendor`, `clean`, `serve`, `watch`;
* `copy`   = parallel(copy:images, copy:root, copy:vendor, copy:fonts);
* `build`  = series(clean, parallel(styles, html, copy));
* `build:prod` = series(set options.env := "production", build);
* `default` = series(build, parallel(serve, watch)).

We embed the combinator structure (`series` / `parallel` over task names),
the four watch rules, the per-task reload piping, the module-level
`options.env` mutation, the dev-server configuration, and a file-tree
semantics of the file-producing tasks, and prove or refute the frozen
claims about them.  Definitions come first, then the theorems.
-/

namespace GemCheck

/-- Combinator tree of the gulp orchestrator.  `gulp.series` and
`gulp.parallel` are variadic in the source; we encode them by nested binary
`seq` / `par` nodes (series of three = `seq a (seq b c)` etc.), which keeps
the same ordering relation.  A leaf is a registered task name. -/
inductive TaskSpec where
  | leaf : String → TaskSpec
  | seq : TaskSpec → TaskSpec → TaskSpec
  | par : TaskSpec → TaskSpec → TaskSpec
deriving DecidableEq, Repr

namespace TaskSpec

/-- All task names reachable from a spec, in declaration order. -/
def tasksOf : TaskSpec → List String
  | leaf n => [n]
  | seq a b => tasksOf a ++ tasksOf b
  | par a b => tasksOf a ++ tasksOf b

/-- Pointwise merge of two ready-set sequences: step `i` of `par a b`
runs step `i` of `a` together with step `i` of `b`. -/
def mergeSteps : List (List String) → List (List String) → List (List String)
  | [], ys => ys
  | xs, [] => xs
  | x :: xs, y :: ys => (x ++ y) :: mergeSteps xs ys

/-- Execution plan: the sequence of ready sets (tasks eligible to start
concurrently at each step).  `seq` concatenates the plans of its parts,
`par` runs the plans of its parts side by side. -/
def readySets : TaskSpec → List (List String)
  | leaf n => [[n]]
  | seq a b => readySets a ++ readySets b
  | par a b => mergeSteps (readySets a) (readySets b)

/-- `precedes s x y` holds when the combinator structure forces every run
of task `x` to complete before task `y` starts: some `seq` node has `x` on
the left and `y` on the right.  Tasks in sibling branches of a `par` node
have no ordering constraint. -/
def precedes : TaskSpec → String → String → Bool
  | leaf _, _, _ => false
  | seq a b, x, y =>
      precedes a x y || precedes b x y ||
        (decide (x ∈ tasksOf a) && decide (y ∈ tasksOf b))
  | par a b, x, y => precedes a x y || precedes b x y

end TaskSpec

open TaskSpec

/-- `gulp.task('copy', gulp.parallel('copy:images', 'copy:root',
'copy:vendor', 'copy:fonts'))`. -/
def copySpec : TaskSpec :=
  .par (.leaf "copy:images")
    (.par (.leaf "copy:root") (.par (.leaf "copy:vendor") (.leaf "copy:fonts")))

/-- `gulp.task('build', gulp.series('clean', gulp.parallel('styles',
'html', 'copy')))`; the registered name `copy` resolves to `copySpec`. -/
def buildSpec : TaskSpec :=
  .seq (.leaf "clean") (.par (.leaf "styles") (.par (.leaf "html") copySpec))

/-- `gulp.task('default', gulp.series('build', gulp.parallel('serve',
'watch')))`; the registered name `build` resolves to `buildSpec`. -/
def defaultSpec : TaskSpec :=
  .seq buildSpec (.par (.leaf "serve") (.leaf "watch"))

/-! ## Watch rules

`gulp.task('watch', ...)` registers four watchers:

```
gulp.watch(['src/**/*.pug', 'src/**/*.md'], gulp.series('html'));
gulp.watch('src/**/*.js', gulp.series('html'));
gulp.watch('src/**/*.css', gulp.series('styles'));
gulp.watch('src/images/**/*', gulp.series('copy:images', 'html'));
```

We model filesystem paths as lists of segments (so `src/a/b.pug` is
`["src", "a", "b.pug"]`) and each glob as the segment-level predicate it
denotes (a globstar may match zero segments, so `src/**/*.pug` accepts
`src/a.pug`; dotfile exclusion is below the granularity needed here). -/

/-- A filesystem path, as its list of segments. -/
abbrev FsPath := List String

/-- `strHasSuffix s e` holds when string `s` ends with `e` (stated on the
character lists so it evaluates by kernel reduction). -/
def strHasSuffix (s e : String) : Bool :=
  e.data.isSuffixOf s.data

/-- Glob `src/**/*<e>`: first segment `src`, at least one further
segment, last segment carrying the extension `e`. -/
def srcGlobExt (e : String) (p : FsPath) : Bool :=
  match p with
  | "src" :: rest => !rest.isEmpty && strHasSuffix (p.getLastD "") e
  | _ => false

/-- Glob `src/images/**/*`: first two segments `src/images`, at least one
further segment. -/
def srcImagesGlob (p : FsPath) : Bool :=
  match p with
  | "src" :: "images" :: rest => !rest.isEmpty
  | _ => false

/-- A watch rule: the glob predicate of the paths it monitors, paired with
the ordered task list (`gulp.series`) it re-runs on a matching change. -/
structure WatchRule where
  hits : FsPath → Bool
  tasks : List String

/-- The four watch rules, in registration order. -/
def watchRules : List WatchRule :=
  [ ⟨fun p => srcGlobExt ".pug" p || srcGlobExt ".md" p, ["html"]⟩,
    ⟨srcGlobExt ".js", ["html"]⟩,
    ⟨srcGlobExt ".css", ["styles"]⟩,
    ⟨srcImagesGlob, ["copy:images", "html"]⟩ ]

/-- The ordered task lists of the Build Runs started when path `p`
changes: one run per rule whose globs match `p`. -/
def triggeredRuns (p : FsPath) : List (List String) :=
  (watchRules.filter (·.hits p)).map (·.tasks)

/-! ## Reload notifications

Each file-producing task ends its pipeline with
`.pipe(reload({stream: true}))`: the reload is a per-task action wired
inside the task, always stream-scoped.  `clean`, `serve` and `watch` emit
no reload.  We record one notification per execution of a task (the
per-file granularity of the stream is immaterial to the counts and scopes
at issue). -/

/-- Scope of a reload notification. -/
inductive Scope where
  | stream : Scope
  | full : Scope
deriving DecidableEq, Repr

/-- Reload notifications emitted by one execution of a named task. -/
def taskNotifs : String → List Scope
  | "html" => [.stream]
  | "styles" => [.stream]
  | "copy:images" => [.stream]
  | "copy:root" => [.stream]
  | "copy:vendor" => [.stream]
  | "copy:fonts" => [.stream]
  | _ => []

/-- Reload notifications emitted by running an ordered task list. -/
def runNotifs (ts : List String) : List Scope :=
  ts.flatMap taskNotifs

/-! ## The module-level `options` object

`var options = { env: 'development' };` is module state read by the `html`
task (pug locals) and mutated by `build:prod`:

```
gulp.task('build:prod', gulp.series(
  function(cb) { options.env = 'production'; cb(); },
  'build'));
```

We track the `env` field across a Build Run of each command. -/

/-- The anonymous first step of `build:prod`: sets `options.env`. -/
def setEnvProd : String → String := fun _ => "production"

/-- Effect of a Build Run for a command on `options.env`.  None of
`clean`, `styles`, `html` or the copy tasks writes `options`, so `build`
leaves it unchanged; `build:prod` runs `setEnvProd` first, then `build`. -/
def runEnv : String → String → String
  | "build", e => e
  | "build:prod", e => setEnvProd e
  | _, e => e

/-! ## Single-flight run queue of the Watch Coordinator -/

/-- Modelled from the spec: the per-rule run queue of the Watch
Coordinator.  The gulpfile only registers the watchers (`gulp.watch(globs,
gulp.series(...))`); the queueing discipline itself lives inside the
orchestrator library and is not under `src/`, so we model the spec's
contract: at most one run in flight per rule, and at most one queued
rerun.  A rule is `idle` (no run in flight), `running` (one run in
flight, nothing queued), or `runningQueued` (one run in flight and one
rerun queued). -/
inductive RuleState where
  | idle : RuleState
  | running : RuleState
  | runningQueued : RuleState
deriving DecidableEq, Repr, Fintype

/-- Modelled from the spec: events seen by one watch rule — a matching
filesystem change, or the completion of the rule's in-flight run. -/
inductive WatchEvent where
  | change : WatchEvent
  | finish : WatchEvent
deriving DecidableEq, Repr, Fintype

/-- Modelled from the spec: one step of the per-rule coordinator.  The
returned number counts the Build Runs started by this step.  A change
during an in-flight run only marks a queued rerun (coalescing further
changes); the queued rerun starts when the in-flight run finishes. -/
def stepRule : RuleState → WatchEvent → RuleState × Nat
  | .idle, .change => (.running, 1)
  | .running, .change => (.runningQueued, 0)
  | .runningQueued, .change => (.runningQueued, 0)
  | .idle, .finish => (.idle, 0)
  | .running, .finish => (.idle, 0)
  | .runningQueued, .finish => (.running, 1)

/-- Number of Build Runs in flight for a rule in a given state. -/
def inFlight : RuleState → Nat
  | .idle => 0
  | .running => 1
  | .runningQueued => 1

/-- Number of queued (not yet started) reruns for a rule. -/
def queuedReruns : RuleState → Nat
  | .idle => 0
  | .running => 0
  | .runningQueued => 1

/-- Runs an event list through the per-rule coordinator, returning the
final state and how many Build Runs were started along the way. -/
def runTrace (s : RuleState) : List WatchEvent → RuleState × Nat
  | [] => (s, 0)
  | e :: es =>
      let p := stepRule s e
      let q := runTrace p.1 es
      (q.1, p.2 + q.2)

/-! ## The Markdown highlighter callback

```
highlight: function (str, lang) {
  if (lang && hljs.getLanguage(lang)) {
    try {
      return hljs.highlight(lang, str).value;
    } catch (__) {}
  }
  return ''; // use external default escaping
}
```

`hljs.getLanguage` and `hljs.highlight` are opaque collaborators: we take
the set of registered languages as a predicate and the highlighter as a
function that either returns highlighted markup or throws. -/

/-- The `md.highlight` callback.  `lang` is truthy exactly when it is
non-empty; a thrown exception from the highlighter is swallowed and the
empty string returned, which tells the renderer to use its default
escaping. -/
def mdHighlight (getLang : String → Bool)
    (hl : String → String → Except String String)
    (str lang : String) : String :=
  if lang != "" && getLang lang then
    match hl lang str with
    | .ok v => v
    | .error _ => ""
  else ""

/-! ## The dev server

```
function config(dir){
  return {
    server: { baseDir: ['./', dir] },
    host: 'localhost',
    port: 4242
  };
};
gulp.task('serve', function() { browserSync(config('./build')); });
```

A browser-sync static server with several base directories answers a
request from the first base directory that contains the requested file. -/

/-- Static-server configuration, as built by `config(dir)`. -/
structure ServerConfig where
  baseDirs : List String
  host : String
  port : Nat
deriving DecidableEq, Repr

/-- The `config` function of the gulpfile: note the base directories are
`['./', dir]` — the project root is served in addition to `dir`. -/
def config (dir : String) : ServerConfig :=
  { baseDirs := ["./", dir], host := "localhost", port := 4242 }

/-- The configuration the `serve` task passes to the server. -/
def serveConfig : ServerConfig :=
  config "./build"

/-- Joins a base directory and a request path. -/
def joinPath (d req : String) : String :=
  if strHasSuffix d "/" then d ++ req else d ++ "/" ++ req

/-- `served cfg fs req`: the static server with configuration `cfg`, over
a filesystem with file-existence predicate `fs`, can answer request
`req` — some base directory contains the file. -/
def served (cfg : ServerConfig) (fs : String → Bool) (req : String) : Bool :=
  cfg.baseDirs.any fun d => fs (joinPath d req)

/-! ## File-tree semantics of the file-producing tasks

We model the filesystem as a partial map from segment paths to file
contents.  `clean` is `del(['./build/**/*'])`: it removes exactly the
entries strictly below `./build`.  Every other file-producing task reads
the `src` subtree and writes files into the `build` subtree through
`gulp.dest` (create-or-overwrite; never a deletion); the transforms
themselves (pug/useref, postcss/sourcemaps, verbatim copy) are opaque
deterministic collaborators, taken as parameters.  Gulp runs the six
output tasks of `build` concurrently after `clean`; since each reads only
`src/**` and writes only under `./build`, running them in their
declaration order is an equivalent serialization, which is how `runTasks`
executes a plan below. -/

/-- A file tree: path → contents of the file there, if any. -/
def FTree := FsPath → Option String

/-- Paths strictly below `./build` — exactly what the glob
`./build/**/*` of the `clean` task denotes. -/
def inBuildTree (p : FsPath) : Bool :=
  p.head? == some "build" && decide (2 ≤ p.length)

/-- Paths inside the `src` tree, the read domain of every file-producing
task (`gulp.src('src/...')`). -/
def inSrcTree (p : FsPath) : Bool :=
  p.head? == some "src"

/-- The `src` portion of a tree — all any task ever reads. -/
def srcPart (t : FTree) : FTree :=
  fun p => if inSrcTree p then t p else none

/-- The `build` portion of a tree — the output tree under `./build`. -/
def restrictBuild (t : FTree) : FTree :=
  fun p => if inBuildTree p then t p else none

/-- The `clean` task: `del(['./build/**/*'])` removes every entry
strictly below `./build` and touches nothing else. -/
def cleanRun (t : FTree) : FTree :=
  fun p => if inBuildTree p then none else t p

/-- `gulp.dest` semantics: files emitted by a task overwrite what is at
their path; every other path is untouched. -/
def overlay (out t : FTree) : FTree :=
  fun p =>
    match out p with
    | some c => some c
    | none => t p

/-- One file-producing task: compute the emitted files from the `src`
portion of the tree, and write them through `gulp.dest`. -/
def runOut (f : FTree → FTree) (t : FTree) : FTree :=
  overlay (f (srcPart t)) t

/-- A task emitter writes only inside the build tree: off it, nothing is
emitted.  Every destination in the gulpfile (`./build`, `./build/fonts`,
`./build/images`, `./build/vendor`) sits below `./build`. -/
def WritesWithinBuild (f : FTree → FTree) : Prop :=
  ∀ s p, inBuildTree p = false → f s p = none

/-- The opaque transform collaborators of the six file-producing tasks:
`html` additionally reads the rendering options, so its emitter takes the
environment. -/
structure BuildTasks where
  htmlOut : String → FTree → FTree
  stylesOut : FTree → FTree
  imagesOut : FTree → FTree
  rootOut : FTree → FTree
  vendorOut : FTree → FTree
  fontsOut : FTree → FTree

/-- All six emitters of a task bundle write only inside the build tree. -/
def TasksWriteWithinBuild (B : BuildTasks) (env : String) : Prop :=
  WritesWithinBuild (B.htmlOut env) ∧ WritesWithinBuild B.stylesOut ∧
    WritesWithinBuild B.imagesOut ∧ WritesWithinBuild B.rootOut ∧
    WritesWithinBuild B.vendorOut ∧ WritesWithinBuild B.fontsOut

/-- Effect of one named task on the file tree.  `serve` and `watch` do
not touch the tree. -/
def runTask (B : BuildTasks) (env : String) : String → FTree → FTree
  | "clean", t => cleanRun t
  | "html", t => runOut (B.htmlOut env) t
  | "styles", t => runOut B.stylesOut t
  | "copy:images", t => runOut B.imagesOut t
  | "copy:root", t => runOut B.rootOut t
  | "copy:vendor", t => runOut B.vendorOut t
  | "copy:fonts", t => runOut B.fontsOut t
  | _, t => t

/-- Runs a task list left to right over the tree. -/
def runTasks (B : BuildTasks) (env : String) (ns : List String) (t : FTree) : FTree :=
  ns.foldl (fun acc n => runTask B env n acc) t

/-- The tasks of a `build` Build Run, in plan order: the concatenation of
the ready sets of `buildSpec`. -/
def buildTaskList : List String :=
  (readySets buildSpec).flatten

/-- A `build` Build Run over the file tree. -/
def buildRun (B : BuildTasks) (env : String) (t : FTree) : FTree :=
  runTasks B env buildTaskList t

/-- Demonstration collaborators for the witnesses: `html` renders one
page into the build tree, the other tasks emit nothing. -/
def demoTasks : BuildTasks where
  htmlOut := fun _ _ p => if p = ["build", "index.html"] then some "page" else none
  stylesOut := fun _ _ => none
  imagesOut := fun _ _ => none
  rootOut := fun _ _ => none
  vendorOut := fun _ _ => none
  fontsOut := fun _ _ => none

/-- Demonstration source tree for the witnesses. -/
def demoTree : FTree :=
  fun p => if p = ["src", "index.pug"] then some "pug" else none

/-! ## Theorems -/

/-- C1: requesting `build` yields the ready sets `[{clean}]` then
`[{styles, html, copy:images, copy:root, copy:vendor, copy:fonts}]`;
`clean` precedes every other task reachable from `build`, and no ordering
constraint holds between any two of the six second-step tasks. -/
theorem build_clean_first_then_parallel :
    readySets buildSpec =
      [["clean"],
       ["styles", "html", "copy:images", "copy:root", "copy:vendor", "copy:fonts"]] ∧
    ((tasksOf buildSpec).all fun t =>
      t == "clean" || precedes buildSpec "clean" t) = true ∧
    (["styles", "html", "copy:images", "copy:root", "copy:vendor", "copy:fonts"].all
      fun t₁ =>
        ["styles", "html", "copy:images", "copy:root", "copy:vendor", "copy:fonts"].all
          fun t₂ => !precedes buildSpec t₁ t₂) = true := by
  decide

/-- C8: `default` runs the whole `build` plan first, then starts `serve`
and `watch` together; every task of `build` precedes both `serve` and
`watch`, and `serve` and `watch` are unordered with respect to each
other. -/
theorem default_is_build_then_serve_watch :
    readySets defaultSpec = readySets buildSpec ++ [["serve", "watch"]] ∧
    ((tasksOf buildSpec).all fun t =>
      precedes defaultSpec t "serve" && precedes defaultSpec t "watch") = true ∧
    precedes defaultSpec "serve" "watch" = false ∧
    precedes defaultSpec "watch" "serve" = false := by
  decide

/-- Evaluation of `triggeredRuns`: one run per matching rule, in
registration order. -/
lemma triggeredRuns_eq (p : FsPath) :
    triggeredRuns p =
      ((if (srcGlobExt ".pug" p || srcGlobExt ".md" p) = true
          then [["html"]] else []) ++
       (if srcGlobExt ".js" p = true then [["html"]] else []) ++
       (if srcGlobExt ".css" p = true then [["styles"]] else []) ++
       (if srcImagesGlob p = true
          then [["copy:images", "html"]] else [])) := by
  simp only [triggeredRuns, watchRules]
  cases h1 : (srcGlobExt ".pug" p || srcGlobExt ".md" p) <;>
    cases h2 : srcGlobExt ".js" p <;>
    cases h3 : srcGlobExt ".css" p <;>
    cases h4 : srcImagesGlob p <;>
    simp [List.filter, h1, h2, h3, h4]

/-- C4: a changed `.pug`, `.md`, or `.js` file under `src/` triggers a run
of exactly `[html]`; a changed `.css` file under `src/` triggers exactly
`[styles]`; a change under `src/images/` triggers exactly
`[copy:images, html]` in that order; and no watch event ever triggers a
task outside {html, styles, copy:images}. -/
theorem watch_rules_trigger_exact_tasks :
    (∀ p : FsPath, (srcGlobExt ".pug" p || srcGlobExt ".md" p
        || srcGlobExt ".js" p) = true → ["html"] ∈ triggeredRuns p) ∧
    (∀ p : FsPath, srcGlobExt ".css" p = true → ["styles"] ∈ triggeredRuns p) ∧
    (∀ p : FsPath, srcImagesGlob p = true →
      ["copy:images", "html"] ∈ triggeredRuns p) ∧
    (∀ p : FsPath, ∀ r ∈ triggeredRuns p, ∀ t ∈ r,
      t ∈ (["html", "styles", "copy:images"] : List String)) := by
  refine ⟨?_, ?_, ?_, ?_⟩
  · intro p hp
    rw [triggeredRuns_eq]
    rcases Bool.or_eq_true_iff.mp hp with h | h
    · rcases Bool.or_eq_true_iff.mp h with h' | h' <;> simp [h']
    · simp [hp, h]
  · intro p hp
    rw [triggeredRuns_eq]
    simp [hp]
  · intro p hp
    rw [triggeredRuns_eq]
    simp [hp]
  · intro p r hr t ht
    rw [triggeredRuns_eq] at hr
    simp only [List.mem_append] at hr
    rcases hr with ((hr | hr) | hr) | hr <;>
      (split at hr <;> simp_all)
    all_goals tauto

/-- Concrete instances of C4's theorem: `src/index.pug` triggers `[html]`,
`src/styles/main.css` triggers `[styles]`, `src/images/logo.png` triggers
`[copy:images, html]`. -/
theorem watch_rules_trigger_exact_tasks_witness :
    ["html"] ∈ triggeredRuns ["src", "index.pug"] ∧
    ["styles"] ∈ triggeredRuns ["src", "styles", "main.css"] ∧
    ["copy:images", "html"] ∈ triggeredRuns ["src", "images", "logo.png"] :=
  ⟨watch_rules_trigger_exact_tasks.1 ["src", "index.pug"] (by decide),
   watch_rules_trigger_exact_tasks.2.1 ["src", "styles", "main.css"] (by decide),
   watch_rules_trigger_exact_tasks.2.2.1 ["src", "images", "logo.png"] (by decide)⟩

/-- C3 counterexample: the watch rule for `src/images/**/*` runs
`copy:images` then `html`, and that run emits two reload notifications
(one piped inside each task), not exactly one; moreover the run for a
content change (`html`) emits scope `stream`, never `full`. -/
theorem reload_not_once_per_run :
    ¬((runNotifs ["copy:images", "html"]).length = 1 ∧
      runNotifs ["html"] = [Scope.full]) := by
  decide

/-- C3 amended: reload is a per-task action piped inside each
file-producing task, always with scope `stream`: a watch-triggered run
emits exactly one stream-scoped notification per task in its list, so the
images rule emits two and no rule ever emits a `full` reload. -/
theorem reload_stream_per_task :
    ((watchRules.map (·.tasks)).all fun ts =>
      runNotifs ts == ts.map fun _ => Scope.stream) = true ∧
    runNotifs ["copy:images", "html"] = [Scope.stream, Scope.stream] ∧
    Scope.full ∉ runNotifs ["copy:images", "html"] := by
  decide

/-- C2 counterexample: a Build Run for `build:prod` mutates program state
outside the output tree — the module-level rendering option `options.env`
goes from `development` to `production` and keeps that value after the
run. -/
theorem build_prod_mutates_options :
    ¬(runEnv "build:prod" "development" = "development") := by
  decide

/-- C2 amended: a plain `build` run leaves the rendering options
unchanged, but a `build:prod` run persistently sets `options.env` to
`production` — a module-level mutation that survives the run (so later
runs in the same process see it). -/
theorem build_keeps_options_build_prod_sets_production :
    (∀ e : String, runEnv "build" e = e) ∧
    (∀ e : String, runEnv "build:prod" e = "production") ∧
    runEnv "build:prod" "development" ≠ "development" :=
  ⟨fun _ => rfl, fun _ => rfl, by decide⟩

/-- Concrete instance of C2's amended theorem at `env = "development"`. -/
theorem build_keeps_options_witness :
    runEnv "build" "development" = "development" ∧
    runEnv "build:prod" "development" = "production" :=
  ⟨build_keeps_options_build_prod_sets_production.1 "development",
   build_keeps_options_build_prod_sets_production.2.1 "development"⟩

/-- C5: single-flight per rule.  Every reachable state has at most one run
in flight and at most one queued rerun; a change arriving during an
in-flight run starts nothing immediately (it is enqueued), a second such
change is coalesced into the same queued rerun, and when the in-flight
run finishes exactly one queued rerun starts — so two change events
during one in-progress run yield exactly one rerun in total. -/
theorem single_flight_per_rule :
    (∀ s : RuleState, inFlight s ≤ 1) ∧
    (∀ s : RuleState, queuedReruns s ≤ 1) ∧
    stepRule .running .change = (.runningQueued, 0) ∧
    stepRule .runningQueued .change = (.runningQueued, 0) ∧
    stepRule .runningQueued .finish = (.running, 1) ∧
    runTrace .running [.change, .change, .finish] = (.running, 1) := by
  decide

/-- Concrete instance of C5's theorem: the `running` state has one run in
flight and no queued rerun exceeding one. -/
theorem single_flight_per_rule_witness :
    inFlight RuleState.running ≤ 1 ∧ queuedReruns RuleState.running ≤ 1 :=
  ⟨single_flight_per_rule.1 RuleState.running,
   single_flight_per_rule.2.1 RuleState.running⟩

/-- C9: the highlighter callback is total: it returns the highlighter's
markup when the language is non-empty, registered, and highlighting
succeeds, and returns the empty string when the language is empty,
unregistered, or highlighting throws. -/
theorem mdHighlight_total_fallback (getLang : String → Bool)
    (hl : String → String → Except String String) :
    (∀ str, mdHighlight getLang hl str "" = "") ∧
    (∀ str lang, getLang lang = false → mdHighlight getLang hl str lang = "") ∧
    (∀ str lang e, hl lang str = .error e →
      mdHighlight getLang hl str lang = "") ∧
    (∀ str lang v, lang ≠ "" → getLang lang = true → hl lang str = .ok v →
      mdHighlight getLang hl str lang = v) := by
  refine ⟨fun str => rfl, fun str lang hg => ?_, fun str lang e he => ?_,
    fun str lang v hne hg hok => ?_⟩
  · simp [mdHighlight, hg]
  · by_cases hc : (lang != "" && getLang lang) = true
    · simp [mdHighlight, hc, he]
    · simp [mdHighlight, Bool.not_eq_true _ ▸ hc]
  · have hne' : (lang != "") = true := by
      simpa using hne
    simp [mdHighlight, hne', hg, hok]

/-- Concrete instance of C9's theorem: with a highlighter registered for
`lean` that succeeds on `"x"` and throws on `"y"`, the callback returns
the markup, and falls back to `""` for an empty language, an unregistered
language, and a thrown exception. -/
theorem mdHighlight_total_fallback_witness :
    mdHighlight (fun l => l == "lean")
      (fun _ s => if s == "y" then .error "boom" else .ok ("<hl>" ++ s))
      "x" "" = "" ∧
    mdHighlight (fun l => l == "lean")
      (fun _ s => if s == "y" then .error "boom" else .ok ("<hl>" ++ s))
      "x" "ruby" = "" ∧
    mdHighlight (fun l => l == "lean")
      (fun _ s => if s == "y" then .error "boom" else .ok ("<hl>" ++ s))
      "y" "lean" = "" ∧
    mdHighlight (fun l => l == "lean")
      (fun _ s => if s == "y" then .error "boom" else .ok ("<hl>" ++ s))
      "x" "lean" = "<hl>x" := by
  refine ⟨(mdHighlight_total_fallback _ _).1 "x",
    (mdHighlight_total_fallback _ _).2.1 "x" "ruby" (by decide),
    (mdHighlight_total_fallback _ _).2.2.1 "y" "lean" "boom" (by rfl),
    (mdHighlight_total_fallback _ _).2.2.2 "x" "lean" "<hl>x" (by decide)
      (by decide) (by rfl)⟩

/-- C7 counterexample: the `serve` task does not serve only the build
output tree.  Its base directories are `['./', './build']`, so on a
filesystem whose only file is `./gulpfile.js` — a file not under
`./build` — the request `gulpfile.js` is still answered. -/
theorem serve_not_only_from_build :
    ¬(∀ (fs : String → Bool) (req : String),
        served serveConfig fs req = true → fs (joinPath "./build" req) = true) := by
  intro h
  have hserved : served serveConfig (fun s => s == "./gulpfile.js")
      "gulpfile.js" = true := by decide
  exact absurd (h (fun s => s == "./gulpfile.js") "gulpfile.js" hserved)
    (by decide)

/-- C7 amended: `serve` serves over local HTTP from base directories
`['./', './build']` — the project root as well as the build output
tree — answering a request exactly when the file exists under either;
reload notifications are delivered by the same server process. -/
theorem serve_serves_root_and_build :
    serveConfig.baseDirs = ["./", "./build"] ∧
    ∀ (fs : String → Bool) (req : String),
      served serveConfig fs req =
        (fs (joinPath "./" req) || fs (joinPath "./build" req)) := by
  refine ⟨rfl, fun fs req => ?_⟩
  simp [served, serveConfig, config]

/-- Concrete instance of C7's amended theorem: a request for
`index.html` over a filesystem holding only `./build/index.html`. -/
theorem serve_serves_root_and_build_witness :
    served serveConfig (fun s => s == "./build/index.html") "index.html" =
      (((fun s : String => s == "./build/index.html") (joinPath "./" "index.html")) ||
       ((fun s : String => s == "./build/index.html") (joinPath "./build" "index.html"))) :=
  serve_serves_root_and_build.2 (fun s => s == "./build/index.html") "index.html"

/-- A path in the `src` tree is not in the build tree: the two subtrees
are rooted at different directories. -/
lemma inSrc_not_inBuild (p : FsPath) (h : inSrcTree p = true) :
    inBuildTree p = false := by
  have h' : p.head? = some "src" := by simpa [inSrcTree] using h
  have hne : ((some "src" : Option String) == some "build") = false := by decide
  simp only [inBuildTree, h', hne, Bool.false_and]

/-- A task whose emitter writes only inside the build tree leaves the
`src` portion of the tree unchanged. -/
lemma runOut_src (f : FTree → FTree) (hf : WritesWithinBuild f) (t : FTree) :
    srcPart (runOut f t) = srcPart t := by
  funext p
  by_cases hs : inSrcTree p = true
  · have hb := inSrc_not_inBuild p hs
    simp [srcPart, hs, runOut, overlay, hf (srcPart t) p hb]
  · simp [srcPart, hs]

/-- A task whose emitter writes only inside the build tree changes no
path outside it. -/
lemma runOut_offBuild (f : FTree → FTree) (hf : WritesWithinBuild f)
    (t : FTree) (p : FsPath) (hp : inBuildTree p = false) :
    runOut f t p = t p := by
  simp [runOut, overlay, hf (srcPart t) p hp]

/-- `gulp.dest` never deletes: if a path is empty after a task ran, it
was empty before. -/
lemma runOut_none (f : FTree → FTree) (t : FTree) (p : FsPath)
    (h : runOut f t p = none) : t p = none := by
  cases hfp : f (srcPart t) p with
  | none => simpa [runOut, overlay, hfp] using h
  | some c => simp [runOut, overlay, hfp] at h

/-- `clean` leaves the `src` portion of the tree unchanged. -/
lemma cleanRun_src (t : FTree) : srcPart (cleanRun t) = srcPart t := by
  funext p
  by_cases hs : inSrcTree p = true
  · simp [srcPart, hs, cleanRun, inSrc_not_inBuild p hs]
  · simp [srcPart, hs]

/-- Congruence of one task step: two trees with the same `src` portion
that agree on the build tree still do after the task runs. -/
lemma runOut_congr (f : FTree → FTree) (hf : WritesWithinBuild f)
    (t₁ t₂ : FTree) (hsrc : srcPart t₁ = srcPart t₂)
    (hb : ∀ p, inBuildTree p = true → t₁ p = t₂ p) :
    srcPart (runOut f t₁) = srcPart (runOut f t₂) ∧
    ∀ p, inBuildTree p = true → runOut f t₁ p = runOut f t₂ p := by
  constructor
  · rw [runOut_src f hf t₁, runOut_src f hf t₂, hsrc]
  · intro p hp
    simp only [runOut, overlay, hsrc]
    cases hfp : f (srcPart t₂) p with
    | none => simp only [hfp]; exact hb p hp
    | some c => simp only [hfp]

/-- The plan of `build` unfolded: `clean` first, then the six
file-producing tasks of its parallel step. -/
lemma buildRun_eq (B : BuildTasks) (env : String) (t : FTree) :
    buildRun B env t =
      runOut B.fontsOut (runOut B.vendorOut (runOut B.rootOut
        (runOut B.imagesOut (runOut (B.htmlOut env)
          (runOut B.stylesOut (cleanRun t)))))) := rfl

/-- A whole `build` run leaves the `src` portion of the tree unchanged. -/
lemma buildRun_src (B : BuildTasks) (env : String)
    (hB : TasksWriteWithinBuild B env) (t : FTree) :
    srcPart (buildRun B env t) = srcPart t := by
  obtain ⟨h1, h2, h3, h4, h5, h6⟩ := hB
  rw [buildRun_eq, runOut_src _ h6, runOut_src _ h5, runOut_src _ h4,
    runOut_src _ h3, runOut_src _ h1, runOut_src _ h2, cleanRun_src]

/-- Two trees with the same `src` portion produce the same build tree
under a `build` run. -/
lemma buildRun_congr (B : BuildTasks) (env : String)
    (hB : TasksWriteWithinBuild B env) (t₁ t₂ : FTree)
    (hsrc : srcPart t₁ = srcPart t₂) :
    ∀ p, inBuildTree p = true → buildRun B env t₁ p = buildRun B env t₂ p := by
  obtain ⟨h1, h2, h3, h4, h5, h6⟩ := hB
  have c0s : srcPart (cleanRun t₁) = srcPart (cleanRun t₂) := by
    rw [cleanRun_src, cleanRun_src, hsrc]
  have c0b : ∀ p, inBuildTree p = true → cleanRun t₁ p = cleanRun t₂ p := by
    intro p hp
    simp [cleanRun, hp]
  have c1 := runOut_congr _ h2 _ _ c0s c0b
  have c2 := runOut_congr _ h1 _ _ c1.1 c1.2
  have c3 := runOut_congr _ h3 _ _ c2.1 c2.2
  have c4 := runOut_congr _ h4 _ _ c3.1 c3.2
  have c5 := runOut_congr _ h5 _ _ c4.1 c4.2
  have c6 := runOut_congr _ h6 _ _ c5.1 c5.2
  intro p hp
  rw [buildRun_eq, buildRun_eq]
  exact c6.2 p hp

/-- C6: idempotence of the full build.  With unchanged sources and an
unchanged `environment` option, running `clean` then `build` twice in
succession yields byte-identical output trees under `./build` after each
run, for every choice of (deterministic) transform collaborators that
write only inside the build tree. -/
theorem clean_build_idempotent (B : BuildTasks) (env : String)
    (hB : TasksWriteWithinBuild B env) (t : FTree) :
    restrictBuild (buildRun B env (cleanRun (buildRun B env (cleanRun t)))) =
      restrictBuild (buildRun B env (cleanRun t)) := by
  have hsrc : srcPart (cleanRun (buildRun B env (cleanRun t))) =
      srcPart (cleanRun t) := by
    rw [cleanRun_src, buildRun_src B env hB, cleanRun_src]
  have h := buildRun_congr B env hB _ _ hsrc
  funext p
  by_cases hp : inBuildTree p = true
  · simp [restrictBuild, hp, h p hp]
  · simp [restrictBuild, hp]

/-- The demonstration collaborators write only inside the build tree. -/
lemma demoTasks_write : TasksWriteWithinBuild demoTasks "development" := by
  refine ⟨?_, fun s p _ => rfl, fun s p _ => rfl, fun s p _ => rfl,
    fun s p _ => rfl, fun s p _ => rfl⟩
  intro s p hp
  by_cases h : p = ["build", "index.html"]
  · subst h
    exact absurd hp (by decide)
  · simp [demoTasks, h]

/-- Concrete instance of C6's theorem, at the demonstration collaborators
and source tree. -/
theorem clean_build_idempotent_witness :
    restrictBuild (buildRun demoTasks "development"
        (cleanRun (buildRun demoTasks "development" (cleanRun demoTree)))) =
      restrictBuild (buildRun demoTasks "development" (cleanRun demoTree)) :=
  clean_build_idempotent demoTasks "development" demoTasks_write demoTree

/-- C10: `clean` empties exactly the entries below `./build` (the
`./build` directory entry itself is outside the deleted set) and leaves
every other path untouched; every other task of the build plan never
deletes a file and changes nothing outside the build tree; `serve` and
`watch` leave the tree alone entirely. -/
theorem clean_deletes_exactly_build_contents (B : BuildTasks) (env : String)
    (hB : TasksWriteWithinBuild B env) :
    (∀ (t : FTree) (p : FsPath), inBuildTree p = true → cleanRun t p = none) ∧
    (∀ (t : FTree) (p : FsPath), inBuildTree p = false → cleanRun t p = t p) ∧
    inBuildTree ["build"] = false ∧
    (∀ n ∈ buildTaskList, n ≠ "clean" → ∀ (t : FTree) (p : FsPath),
      (runTask B env n t p = none → t p = none) ∧
      (inBuildTree p = false → runTask B env n t p = t p)) ∧
    (∀ t : FTree, runTask B env "serve" t = t ∧ runTask B env "watch" t = t) := by
  obtain ⟨h1, h2, h3, h4, h5, h6⟩ := hB
  refine ⟨fun t p hp => by simp [cleanRun, hp],
    fun t p hp => by simp [cleanRun, hp], by decide, ?_,
    fun t => ⟨rfl, rfl⟩⟩
  intro n hn hne t p
  have hl : buildTaskList =
      ["clean", "styles", "html", "copy:images", "copy:root",
       "copy:vendor", "copy:fonts"] := rfl
  rw [hl] at hn
  simp only [List.mem_cons, List.not_mem_nil, or_false] at hn
  rcases hn with rfl | rfl | rfl | rfl | rfl | rfl | rfl
  · exact absurd rfl hne
  · exact ⟨fun h => runOut_none _ _ _ h, fun hp => runOut_offBuild _ h2 _ _ hp⟩
  · exact ⟨fun h => runOut_none _ _ _ h, fun hp => runOut_offBuild _ h1 _ _ hp⟩
  · exact ⟨fun h => runOut_none _ _ _ h, fun hp => runOut_offBuild _ h3 _ _ hp⟩
  · exact ⟨fun h => runOut_none _ _ _ h, fun hp => runOut_offBuild _ h4 _ _ hp⟩
  · exact ⟨fun h => runOut_none _ _ _ h, fun hp => runOut_offBuild _ h5 _ _ hp⟩
  · exact ⟨fun h => runOut_none _ _ _ h, fun hp => runOut_offBuild _ h6 _ _ hp⟩

/-- Concrete instance of C10's theorem: `clean` removes
`build/style.css` but keeps `src/index.pug` intact. -/
theorem clean_deletes_exactly_build_contents_witness :
    cleanRun demoTree ["build", "style.css"] = none ∧
    cleanRun demoTree ["src", "index.pug"] = demoTree ["src", "index.pug"] :=
  ⟨(clean_deletes_exactly_build_contents demoTasks "development"
      demoTasks_write).1 demoTree ["build", "style.css"] (by decide),
   (clean_deletes_exactly_build_contents demoTasks "development"
      demoTasks_write).2.1 demoTree ["src", "index.pug"] (by decide)⟩

end GemCheck
